import Mathlib

/-!
Verification of the agent-course repository's own logic: the tool functions
(currency converter, approval-gate tools, loop exit signal, approval detection
helper) are embedded directly from the Python source; the two orchestration
behaviours that live in the external SDK (the bounded refinement loop and the
parallel fan-out/fan-in join) are modelled from the specification, since only
their configuration appears in the repository.

Python dicts returned by tools are embedded as association lists
`List (String × Value)` in literal order; Python floats appearing as exact
decimal literals are embedded as rationals.
-/

/-- Values stored in tool result dicts and payloads: strings, integers,
rationals (for the decimal fee/rate literals) and booleans. -/
inductive Value where
  | str : String → Value
  | int : Int → Value
  | rat : ℚ → Value
  | bool : Bool → Value
deriving DecidableEq, Repr

/-- Embedding of Python `dict.get` on a literal dict: first binding of the key,
if any. -/
def dictGet {α : Type} (d : List (String × α)) (k : String) : Option α :=
  (d.find? (fun p => p.1 == k)).map (fun p => p.2)

/-- The single-quote character, used in the fee lookup's error message. -/
def qm : String := "\x27"

/-- Embedding of Python `str.lower` as ASCII lowercasing (every string the
repository passes through it is ASCII). -/
def pyLower (s : String) : String := String.mk (s.data.map Char.toLower)

/-- Renders a money amount given in cents the way Python's `f"{x:.2f}"` renders
the corresponding exact decimal. -/
def fmtMoney (cents : Int) : String :=
  let a := cents.natAbs
  (if cents < 0 then "-" else "")
    ++ toString (a / 100) ++ "."
    ++ (if a % 100 < 10 then "0" else "") ++ toString (a % 100)

/-! ## Day2/task2a_custom_tools/currency_converter.py -/

/-- The fee database literal from `get_fee_for_payment_method`. -/
def fee_database : List (String × ℚ) :=
  [("platinum credit card", 2/100),
   ("gold debit card", 35/1000),
   ("bank transfer", 1/100)]

/-- Embedding of `get_fee_for_payment_method`: lowercase lookup in the fee
database; a hit returns a success record with the fee, a miss returns an error
record naming the method. -/
def get_fee_for_payment_method (method : String) : List (String × Value) :=
  match dictGet fee_database (pyLower method) with
  | some fee =>
      [("status", Value.str "success"), ("fee_percentage", Value.rat fee)]
  | none =>
      [("status", Value.str "error"),
       ("error_message",
        Value.str ("Payment method " ++ qm ++ method ++ qm ++ " not found"))]

/-- The nested rate database literal from `get_exchange_rate`. -/
def rate_database : List (String × List (String × ℚ)) :=
  [("usd", [("eur", 93/100), ("jpy", 1575/10), ("inr", 8358/100)])]

/-- Embedding of `get_exchange_rate`: two-level lowercase lookup; the Python
code tests the looked-up rate for truthiness (`if rate:`), so a missing pair
and a zero rate both take the error branch. -/
def get_exchange_rate (base_currency target_currency : String) :
    List (String × Value) :=
  let rate := (dictGet rate_database (pyLower base_currency)).bind
      (fun inner => dictGet inner (pyLower target_currency))
  match rate with
  | some r =>
      if r ≠ 0 then [("status", Value.str "success"), ("rate", Value.rat r)]
      else
        [("status", Value.str "error"),
         ("error_message",
          Value.str ("Unsupported pair: " ++ base_currency ++ "/"
            ++ target_currency))]
  | none =>
      [("status", Value.str "error"),
       ("error_message",
        Value.str ("Unsupported pair: " ++ base_currency ++ "/"
          ++ target_currency))]

/-! ## Tool context model (ADK `ToolContext` as the tools use it) -/

/-- The confirmation a resumed run carries: the human decision. -/
structure ToolConfirmation where
  confirmed : Bool
deriving DecidableEq, Repr

/-- One recorded `request_confirmation` call: human-readable hint plus payload. -/
structure ConfirmationRequest where
  hint : String
  payload : List (String × Value)
deriving DecidableEq, Repr

/-- The slice of the ADK tool context the repository's tools read and write:
the optional confirmation of a resumed run, and the requests recorded by
`request_confirmation`. -/
structure ToolContext where
  tool_confirmation : Option ToolConfirmation
  confirmation_requests : List ConfirmationRequest
deriving DecidableEq, Repr

/-- Embedding of `tool_context.request_confirmation(hint=..., payload=...)`:
records the request on the context. -/
def ToolContext.request_confirmation (ctx : ToolContext) (hint : String)
    (payload : List (String × Value)) : ToolContext :=
  { ctx with
    confirmation_requests := ctx.confirmation_requests ++ [⟨hint, payload⟩] }

/-! ## Day2/examples/lro_tool_template.py -/

def APPROVAL_THRESHOLD : Int := 10

/-- Embedding of `my_lro_tool`: auto-approve at or below the threshold; above
it, a first call (no confirmation on the context) records a confirmation
request and returns pending, and a resumed call returns approved or rejected
according to the recorded decision. The returned pair is (result dict, updated
context). -/
def my_lro_tool (item_count : Int) (tool_context : ToolContext) :
    List (String × Value) × ToolContext :=
  if item_count ≤ APPROVAL_THRESHOLD then
    ([("status", Value.str "approved"),
      ("id", Value.str ("AUTO-" ++ toString item_count)),
      ("message",
       Value.str ("Auto-approved: " ++ toString item_count ++ " items"))],
     tool_context)
  else
    match tool_context.tool_confirmation with
    | none =>
        (([("status", Value.str "pending"),
           ("message",
            Value.str (toString item_count ++ " items requires approval"))]),
         tool_context.request_confirmation
           ("⚠️ Large operation: " ++ toString item_count
             ++ " items. Approve?")
           [("item_count", Value.int item_count)])
    | some conf =>
        if conf.confirmed then
          ([("status", Value.str "approved"),
            ("id", Value.str ("HUMAN-" ++ toString item_count)),
            ("message",
             Value.str ("Approved: " ++ toString item_count ++ " items"))],
           tool_context)
        else
          ([("status", Value.str "rejected"),
            ("message",
             Value.str ("Rejected: " ++ toString item_count ++ " items"))],
           tool_context)

/-! ## Day2/task2b_advanced_patterns/long_running_operations.py -/

def LARGE_ORDER_THRESHOLD : Int := 5

/-- Embedding of `place_shipping_order`: same three-scenario shape as
`my_lro_tool`, with the shipping order ids, messages and payload. -/
def place_shipping_order (num_containers : Int) (destination : String)
    (tool_context : ToolContext) : List (String × Value) × ToolContext :=
  if num_containers ≤ LARGE_ORDER_THRESHOLD then
    ([("status", Value.str "approved"),
      ("order_id", Value.str ("ORD-" ++ toString num_containers ++ "-AUTO")),
      ("message",
       Value.str ("Auto-approved: " ++ toString num_containers
         ++ " containers to " ++ destination))],
     tool_context)
  else
    match tool_context.tool_confirmation with
    | none =>
        ([("status", Value.str "pending"),
          ("message", Value.str "Requires approval")],
         tool_context.request_confirmation
           ("⚠️ Large order: " ++ toString num_containers
             ++ " containers to " ++ destination ++ ". Approve?")
           [("num_containers", Value.int num_containers),
            ("destination", Value.str destination)])
    | some conf =>
        if conf.confirmed then
          ([("status", Value.str "approved"),
            ("order_id",
             Value.str ("ORD-" ++ toString num_containers ++ "-HUMAN")),
            ("message",
             Value.str ("Order approved: " ++ toString num_containers
               ++ " containers to " ++ destination))],
           tool_context)
        else
          ([("status", Value.str "rejected"),
            ("message", Value.str "Order rejected")],
           tool_context)

/-! ## Day2/exercise/image_generation_with_approval.py -/

def BULK_IMAGE_THRESHOLD : Int := 1

/-- Embedding of `generate_images_with_approval`: single image auto-approves;
a bulk first call records a confirmation request with the cost estimate and
returns pending; a resumed bulk call follows the recorded decision. -/
def generate_images_with_approval (num_images : Int) (description : String)
    (tool_context : ToolContext) : List (String × Value) × ToolContext :=
  if num_images ≤ BULK_IMAGE_THRESHOLD then
    ([("status", Value.str "approved"),
      ("generation_id", Value.str ("IMG-" ++ toString num_images ++ "-AUTO")),
      ("num_images", Value.int num_images),
      ("description", Value.str description),
      ("message",
       Value.str ("Auto-approved: Ready to generate " ++ toString num_images
         ++ " image")),
      ("cost_estimate", Value.str ("$" ++ fmtMoney (2 * num_images)))],
     tool_context)
  else
    match tool_context.tool_confirmation with
    | none =>
        ([("status", Value.str "pending"),
          ("message",
           Value.str ("Bulk generation of " ++ toString num_images
             ++ " images requires approval")),
          ("cost_estimate", Value.str ("$" ++ fmtMoney (2 * num_images)))],
         tool_context.request_confirmation
           ("💰 Bulk Generation Request:\n"
             ++ "  • Images: " ++ toString num_images ++ "\n"
             ++ "  • Description: " ++ description ++ "\n"
             ++ "  • Estimated Cost: $" ++ fmtMoney (2 * num_images) ++ "\n"
             ++ "  • Approve this bulk generation?")
           [("num_images", Value.int num_images),
            ("description", Value.str description),
            ("cost_estimate", Value.rat ((num_images : ℚ) * (2/100)))])
    | some conf =>
        if conf.confirmed then
          ([("status", Value.str "approved"),
            ("generation_id",
             Value.str ("IMG-" ++ toString num_images ++ "-HUMAN")),
            ("num_images", Value.int num_images),
            ("description", Value.str description),
            ("message",
             Value.str ("✅ Approved: Ready to generate "
               ++ toString num_images ++ " images")),
            ("cost_estimate", Value.str ("$" ++ fmtMoney (2 * num_images)))],
           tool_context)
        else
          ([("status", Value.str "rejected"),
            ("num_images", Value.int num_images),
            ("message",
             Value.str ("❌ Rejected: Bulk generation of "
               ++ toString num_images ++ " images cancelled"))],
           tool_context)

/-! ## Day1/task2_multi_agent_systems/loop_workflow.py: the exit signal -/

/-- Embedding of `exit_loop`: a zero-argument function returning a constant
approval record. -/
def exit_loop : List (String × Value) :=
  [("status", Value.str "approved"),
   ("message", Value.str "Story approved. Exiting refinement loop.")]

/-- Invocation of `exit_loop` wrapped as a `FunctionTool`: the function takes
no tool context, so invoking it returns the constant record and hands the tool
context back unchanged. -/
def exit_loop_invoke (ctx : ToolContext) :
    List (String × Value) × ToolContext :=
  (exit_loop, ctx)

/-! ## Day2/task2b_advanced_patterns/workflow_helpers.py -/

/-- A genai function call part: id and tool name. -/
structure FunctionCall where
  id : String
  name : String
deriving DecidableEq, Repr

/-- A genai content part as `check_for_approval` reads it. -/
structure ContentPart where
  function_call : Option FunctionCall
  text : Option String
deriving DecidableEq, Repr

/-- A genai content: a list of parts. -/
structure Content where
  parts : List ContentPart
deriving DecidableEq, Repr

/-- An ADK event as `check_for_approval` reads it. -/
structure Event where
  content : Option Content
  invocation_id : String
deriving DecidableEq, Repr

/-- The approval/invocation id pair returned by `check_for_approval`. -/
structure ApprovalInfo where
  approval_id : String
  invocation_id : String
deriving DecidableEq, Repr

/-- The inner loop of `check_for_approval`: the first part whose function call
is present and named `adk_request_confirmation`. -/
def findConfirmationPart : List ContentPart → Option FunctionCall
  | [] => none
  | p :: ps =>
      match p.function_call with
      | some fc =>
          if fc.name == "adk_request_confirmation" then some fc
          else findConfirmationPart ps
      | none => findConfirmationPart ps

/-- Embedding of `check_for_approval`: scans events in order; an event whose
content is present and non-empty is scanned part by part, and the first
matching function call yields the (approval id, invocation id) pair. -/
def check_for_approval : List Event → Option ApprovalInfo
  | [] => none
  | e :: rest =>
      let found :=
        match e.content with
        | some c => if c.parts.isEmpty then none else findConfirmationPart c.parts
        | none => none
      match found with
      | some fc => some ⟨fc.id, e.invocation_id⟩
      | none => check_for_approval rest

/-- Whether a part is a confirmation request: its function call is present and
named `adk_request_confirmation`. -/
def partIsConfirmation (p : ContentPart) : Bool :=
  match p.function_call with
  | some fc => fc.name == "adk_request_confirmation"
  | none => false

/-- Whether an event contains a confirmation-request part. -/
def eventHasConfirmation (e : Event) : Bool :=
  match e.content with
  | some c => c.parts.any partIsConfirmation
  | none => false

/-! ## Day1/task2_multi_agent_systems/loop_workflow.py: the loop composite -/

/-- Configuration of a `LoopAgent` as the repository declares it: name, the
names of its sub-agents in order, and the iteration ceiling. -/
structure LoopAgentConfig where
  name : String
  sub_agent_names : List String
  max_iterations : Nat
deriving DecidableEq, Repr

/-- The `story_refinement_loop` declaration: critic then refiner, at most two
iterations. -/
def story_refinement_loop : LoopAgentConfig :=
  { name := "StoryRefinementLoop"
    sub_agent_names := ["CriticAgent", "RefinerAgent"]
    max_iterations := 2 }

/-- The exact approval sentinel both the critic and refiner instructions use. -/
def APPROVED_SENTINEL : String := "APPROVED"

/-- Modelled from the spec: one run of the bounded refinement loop, whose
semantics (the `LoopAgent` composite) live in the external SDK and are absent
from the repository. Iterations are counted from 1. In iteration `i + 1` the
critic produces `critiques (i + 1)`; if it equals the sentinel exactly, the
refiner invokes the exit signal (`exit_loop`) and the loop terminates
immediately with the draft unchanged; otherwise the refiner overwrites the
draft with `refine draft critique` and the loop continues until the iteration
count reaches the ceiling. Returns (iterations executed, final draft stored
under the draft key current_story). -/
def runRefinementLoop (critiques : Nat → String)
    (refine : String → String → String) :
    Nat → Nat → String → Nat × String
  | 0, i, d => (i, d)
  | fuel + 1, i, d =>
      let c := critiques (i + 1)
      if c = APPROVED_SENTINEL then (i + 1, d)
      else runRefinementLoop critiques refine fuel (i + 1) (refine d c)

/-- Modelled from the spec: the full loop run starting at iteration 0 with the
configured iteration ceiling. -/
def story_loop_run (critiques : Nat → String)
    (refine : String → String → String) (d0 : String) : Nat × String :=
  runRefinementLoop critiques refine story_refinement_loop.max_iterations 0 d0

/-- The draft after `n` refinement steps on critiques `1..n`: the value the
draft key holds entering iteration `n + 1` when no earlier critique was the
sentinel. -/
def draftAt (critiques : Nat → String) (refine : String → String → String)
    (d0 : String) : Nat → String
  | 0 => d0
  | n + 1 => refine (draftAt critiques refine d0 n) (critiques (n + 1))

/-! ## Day1/task2_multi_agent_systems/parallel_workflow.py -/

/-- Configuration of a leaf `Agent` as the parallel workflow declares it: name
and output key. -/
structure AgentConfig where
  name : String
  output_key : String
deriving DecidableEq, Repr

def tech_researcher : AgentConfig :=
  { name := "TechResearcher", output_key := "tech_research" }

def health_researcher : AgentConfig :=
  { name := "HealthResearcher", output_key := "health_research" }

def finance_researcher : AgentConfig :=
  { name := "FinanceResearcher", output_key := "finance_research" }

def aggregator_agent : AgentConfig :=
  { name := "AggregatorAgent", output_key := "executive_summary" }

/-- The `parallel_research_team` sub-agent list. -/
def parallel_research_team : List AgentConfig :=
  [tech_researcher, health_researcher, finance_researcher]

/-- The shared state blob: string keys to string values, most recent write
first. -/
def StateBlob : Type := List (String × String)

/-- Writing a branch's output under its output key (last writer wins). -/
def writeKey (s : StateBlob) (k v : String) : StateBlob := (k, v) :: s

/-- Whether the state blob holds a value for a key. -/
def hasKey (s : StateBlob) (k : String) : Bool :=
  s.any (fun p => p.1 == k)

/-- Modelled from the spec: the fan-out phase of the `ParallelAgent` composite
(external SDK code, absent from the repository) runs every branch to
completion, in some completion order, each branch writing its report under its
own output key. -/
def runBranches (order : List AgentConfig) (out : AgentConfig → String)
    (s : StateBlob) : StateBlob :=
  order.foldl (fun st a => writeKey st a.output_key (out a)) s

/-- Modelled from the spec: the `SequentialAgent` runs the parallel team to
completion, then hands the joined state to the aggregator (join barrier).
Returns the aggregator's input state and the final state after the aggregator
writes its summary. -/
def runResearchSystem (order : List AgentConfig) (out : AgentConfig → String)
    (agg : StateBlob → String) (s : StateBlob) : StateBlob × StateBlob :=
  let joined := runBranches order out s
  (joined, writeKey joined aggregator_agent.output_key (agg joined))

/-- The statuses the spec's tool contract allows. -/
def allowedStatuses : List String :=
  ["success", "error", "approved", "pending", "rejected"]

/-- A tool result dict carries a "status" key holding one of the allowed
status strings. -/
def statusOk (d : List (String × Value)) : Prop :=
  ∃ s, dictGet d "status" = some (Value.str s) ∧ s ∈ allowedStatuses

/-- Folds the refiner over critiques `i+1 .. i+n`, tail-recursively:
the draft after `n` consecutive non-sentinel iterations starting past
iteration `i`. -/
def loopFold (critiques : Nat → String) (refine : String → String → String) :
    Nat → Nat → String → String
  | _, 0, d => d
  | i, n + 1, d =>
      loopFold critiques refine (i + 1) n (refine d (critiques (i + 1)))

/-! ## Helper lemmas -/

/-- Every fee lookup result is either the success record or the error record. -/
theorem fee_result_form (m : String) :
    (∃ f, dictGet fee_database (pyLower m) = some f
      ∧ get_fee_for_payment_method m
          = [("status", Value.str "success"), ("fee_percentage", Value.rat f)])
  ∨ (dictGet fee_database (pyLower m) = none
      ∧ get_fee_for_payment_method m
          = [("status", Value.str "error"),
             ("error_message",
              Value.str ("Payment method " ++ qm ++ m ++ qm
                ++ " not found"))]) := by
  rcases h : dictGet fee_database (pyLower m) with _ | f
  · exact Or.inr ⟨rfl, by simp [get_fee_for_payment_method, h]⟩
  · exact Or.inl ⟨f, rfl, by simp [get_fee_for_payment_method, h]⟩

/-- Every exchange-rate result is either a success record or the error record. -/
theorem rate_result_form (b t : String) :
    (∃ r, get_exchange_rate b t
        = [("status", Value.str "success"), ("rate", Value.rat r)])
  ∨ get_exchange_rate b t
      = [("status", Value.str "error"),
         ("error_message",
          Value.str ("Unsupported pair: " ++ b ++ "/" ++ t))] := by
  unfold get_exchange_rate
  rcases h : (dictGet rate_database (pyLower b)).bind
      (fun inner => dictGet inner (pyLower t)) with _ | r
  · exact Or.inr rfl
  · by_cases hr : r ≠ 0
    · exact Or.inl ⟨r, by simp [hr]⟩
    · exact Or.inr (by simp [hr])

/-! ## Claim theorems -/

/-- C4: `get_fee_for_payment_method` performs a case-insensitive lookup: any
method whose lowercasing is a key of the fee database yields a success record
with that key's fee; in particular "Gold Debit Card" yields fee 0.035; any
method outside the database yields the quoted not-found error record, as for
"bitcoin". -/
theorem C4_fee_lookup :
    (∀ (m : String) (f : ℚ), dictGet fee_database (pyLower m) = some f →
      get_fee_for_payment_method m
        = [("status", Value.str "success"), ("fee_percentage", Value.rat f)])
  ∧ get_fee_for_payment_method "Gold Debit Card"
      = [("status", Value.str "success"),
         ("fee_percentage", Value.rat (35/1000))]
  ∧ (35 : ℚ)/1000 = 0.035
  ∧ (∀ m : String, dictGet fee_database (pyLower m) = none →
      get_fee_for_payment_method m
        = [("status", Value.str "error"),
           ("error_message",
            Value.str ("Payment method " ++ qm ++ m ++ qm ++ " not found"))])
  ∧ get_fee_for_payment_method "bitcoin"
      = [("status", Value.str "error"),
         ("error_message",
          Value.str "Payment method \x27bitcoin\x27 not found")] := by
  refine ⟨fun m f h => ?_, rfl, by norm_num, fun m h => ?_, rfl⟩
  · simp [get_fee_for_payment_method, h]
  · simp [get_fee_for_payment_method, h]

/-- Closed instance of C4's conditional parts at concrete inputs. -/
theorem C4_fee_lookup_witness :
    get_fee_for_payment_method "Bank Transfer"
      = [("status", Value.str "success"), ("fee_percentage", Value.rat (1/100))]
  ∧ get_fee_for_payment_method "dogecoin"
      = [("status", Value.str "error"),
         ("error_message",
          Value.str "Payment method \x27dogecoin\x27 not found")] :=
  ⟨C4_fee_lookup.1 "Bank Transfer" (1/100) rfl,
   C4_fee_lookup.2.2.2.1 "dogecoin" rfl⟩

/-- C5: neither currency tool can fail: on every input each returns either a
success record or an error record carrying an `error_message`; in the
embedding both functions are total, so no exception path exists. -/
theorem C5_no_raise :
    ∀ (m b t : String),
      (dictGet (get_fee_for_payment_method m) "status"
          = some (Value.str "success")
        ∨ (dictGet (get_fee_for_payment_method m) "status"
            = some (Value.str "error")
          ∧ ∃ msg, dictGet (get_fee_for_payment_method m) "error_message"
              = some (Value.str msg)))
    ∧ (dictGet (get_exchange_rate b t) "status" = some (Value.str "success")
        ∨ (dictGet (get_exchange_rate b t) "status" = some (Value.str "error")
          ∧ ∃ msg, dictGet (get_exchange_rate b t) "error_message"
              = some (Value.str msg))) := by
  intro m b t
  constructor
  · rcases fee_result_form m with ⟨f, _, hm⟩ | ⟨_, hm⟩
    · exact Or.inl (by rw [hm]; rfl)
    · exact Or.inr ⟨by rw [hm]; rfl, _, by rw [hm]; rfl⟩
  · rcases rate_result_form b t with ⟨r, hm⟩ | hm
    · exact Or.inl (by rw [hm]; rfl)
    · exact Or.inr ⟨by rw [hm]; rfl, _, by rw [hm]; rfl⟩

/-- C10: `exit_loop` takes no arguments and no tool context: it returns the
constant approval record, and its invocation as a tool leaves any tool context
unchanged. -/
theorem C10_exit_loop_constant :
    exit_loop
      = [("status", Value.str "approved"),
         ("message", Value.str "Story approved. Exiting refinement loop.")]
  ∧ ∀ ctx : ToolContext, exit_loop_invoke ctx = (exit_loop, ctx) :=
  ⟨rfl, fun _ => rfl⟩

/-- C9: `get_exchange_rate` succeeds exactly when the base lowercases to "usd"
and the target lowercases to one of "eur", "jpy", "inr"; the lookup is not
symmetric: EUR/USD is an unsupported pair while USD/EUR succeeds with rate
0.93. -/
theorem C9_rate_asymmetric :
    (∀ b t : String,
      dictGet (get_exchange_rate b t) "status" = some (Value.str "success")
        ↔ (pyLower b = "usd"
           ∧ (pyLower t = "eur" ∨ pyLower t = "jpy" ∨ pyLower t = "inr")))
  ∧ get_exchange_rate "EUR" "USD"
      = [("status", Value.str "error"),
         ("error_message", Value.str "Unsupported pair: EUR/USD")]
  ∧ get_exchange_rate "USD" "EUR"
      = [("status", Value.str "success"), ("rate", Value.rat (93/100))]
  ∧ (93 : ℚ)/100 = 0.93 := by
  refine ⟨fun b t => ?_, rfl, ?_, by norm_num⟩
  · unfold get_exchange_rate
    by_cases hb : pyLower b = "usd"
    · rw [hb]
      by_cases h1 : pyLower t = "eur"
      · rw [h1]; simp [rate_database, dictGet]
      · by_cases h2 : pyLower t = "jpy"
        · rw [h2]; simp [rate_database, dictGet]
        · by_cases h3 : pyLower t = "inr"
          · rw [h3]; simp [rate_database, dictGet]
          · have e1 : (("eur" : String) == pyLower t) = false :=
              beq_eq_false_iff_ne.mpr (Ne.symm h1)
            have e2 : (("jpy" : String) == pyLower t) = false :=
              beq_eq_false_iff_ne.mpr (Ne.symm h2)
            have e3 : (("inr" : String) == pyLower t) = false :=
              beq_eq_false_iff_ne.mpr (Ne.symm h3)
            simp [rate_database, dictGet, List.find?, e1, e2, e3, h1, h2, h3]
    · have e0 : (("usd" : String) == pyLower b) = false :=
        beq_eq_false_iff_ne.mpr (Ne.symm hb)
      simp [rate_database, dictGet, List.find?, e0, hb]
  · have h1 : pyLower "USD" = "usd" := by decide
    have h2 : pyLower "EUR" = "eur" := by decide
    norm_num [get_exchange_rate, rate_database, dictGet, h1, h2]

/-- Looking up a key at the head of a literal dict. -/
theorem dictGet_head {α : Type} (k : String) (v : α) (rest : List (String × α)) :
    dictGet ((k, v) :: rest) k = some v := by
  simp [dictGet, List.find?]

/-- C2: on a first call (no confirmation on the context) both approval-gate
tools auto-approve at or below their threshold, and above it return pending
after recording the confirmation request with its hint and payload. -/
theorem C2_first_call_gate :
    ∀ (n : Int) (ctx : ToolContext) (dest : String),
      ctx.tool_confirmation = none →
      (n ≤ APPROVAL_THRESHOLD →
        dictGet (my_lro_tool n ctx).1 "status" = some (Value.str "approved"))
    ∧ (APPROVAL_THRESHOLD < n →
        dictGet (my_lro_tool n ctx).1 "status" = some (Value.str "pending")
        ∧ (my_lro_tool n ctx).2.confirmation_requests
            = ctx.confirmation_requests
              ++ [⟨"⚠️ Large operation: " ++ toString n ++ " items. Approve?",
                   [("item_count", Value.int n)]⟩])
    ∧ (n ≤ LARGE_ORDER_THRESHOLD →
        dictGet (place_shipping_order n dest ctx).1 "status"
          = some (Value.str "approved"))
    ∧ (LARGE_ORDER_THRESHOLD < n →
        dictGet (place_shipping_order n dest ctx).1 "status"
          = some (Value.str "pending")
        ∧ (place_shipping_order n dest ctx).2.confirmation_requests
            = ctx.confirmation_requests
              ++ [⟨"⚠️ Large order: " ++ toString n ++ " containers to "
                    ++ dest ++ ". Approve?",
                   [("num_containers", Value.int n),
                    ("destination", Value.str dest)]⟩]) := by
  intro n ctx dest hc
  refine ⟨fun h => ?_, fun h => ⟨?_, ?_⟩, fun h => ?_, fun h => ⟨?_, ?_⟩⟩
  · simp [my_lro_tool, h, dictGet_head]
  · simp [my_lro_tool, not_le.mpr h, hc, dictGet_head]
  · simp [my_lro_tool, not_le.mpr h, hc, ToolContext.request_confirmation]
  · simp [place_shipping_order, h, dictGet_head]
  · simp [place_shipping_order, not_le.mpr h, hc, dictGet_head]
  · simp [place_shipping_order, not_le.mpr h, hc,
      ToolContext.request_confirmation]

/-- Closed instance of C2 at item counts 3 and 20. -/
theorem C2_first_call_gate_witness :
    dictGet (my_lro_tool 3 ⟨none, []⟩).1 "status" = some (Value.str "approved")
  ∧ dictGet (my_lro_tool 20 ⟨none, []⟩).1 "status" = some (Value.str "pending")
  ∧ dictGet (place_shipping_order 20 "Oslo" ⟨none, []⟩).1 "status"
      = some (Value.str "pending") :=
  ⟨(C2_first_call_gate 3 ⟨none, []⟩ "Oslo" rfl).1 (by decide),
   ((C2_first_call_gate 20 ⟨none, []⟩ "Oslo" rfl).2.1 (by decide)).1,
   ((C2_first_call_gate 20 ⟨none, []⟩ "Oslo" rfl).2.2.2 (by decide)).1⟩

/-- C3: on a resumed call above the threshold, both approval-gate tools return
exactly "approved" when the recorded confirmation is positive and exactly
"rejected" when it is negative; no other status can arise. -/
theorem C3_resume_gate :
    ∀ (n : Int) (ctx : ToolContext) (dest : String) (c : ToolConfirmation),
      ctx.tool_confirmation = some c →
      (APPROVAL_THRESHOLD < n →
        dictGet (my_lro_tool n ctx).1 "status"
          = some (Value.str (if c.confirmed then "approved" else "rejected")))
    ∧ (LARGE_ORDER_THRESHOLD < n →
        dictGet (place_shipping_order n dest ctx).1 "status"
          = some (Value.str (if c.confirmed then "approved" else "rejected"))) := by
  intro n ctx dest c hc
  rcases c with ⟨b⟩
  cases b
  · exact ⟨fun h => by simp [my_lro_tool, not_le.mpr h, hc, dictGet_head],
           fun h => by simp [place_shipping_order, not_le.mpr h, hc, dictGet_head]⟩
  · exact ⟨fun h => by simp [my_lro_tool, not_le.mpr h, hc, dictGet_head],
           fun h => by simp [place_shipping_order, not_le.mpr h, hc, dictGet_head]⟩

/-- Closed instance of C3 at item count 20 for both decisions. -/
theorem C3_resume_gate_witness :
    dictGet (my_lro_tool 20 ⟨some ⟨true⟩, []⟩).1 "status"
      = some (Value.str "approved")
  ∧ dictGet (place_shipping_order 20 "Oslo" ⟨some ⟨false⟩, []⟩).1 "status"
      = some (Value.str "rejected") :=
  ⟨(C3_resume_gate 20 ⟨some ⟨true⟩, []⟩ "Oslo" ⟨true⟩ rfl).1 (by decide),
   (C3_resume_gate 20 ⟨some ⟨false⟩, []⟩ "Oslo" ⟨false⟩ rfl).2 (by decide)⟩

/-- C6: every tool function defined by the repository returns a dict whose
"status" entry is one of "success", "error", "approved", "pending",
"rejected". -/
theorem C6_status_contract :
    ∀ (m b t dest desc : String) (n : Int) (ctx : ToolContext),
      statusOk (get_fee_for_payment_method m)
    ∧ statusOk (get_exchange_rate b t)
    ∧ statusOk (place_shipping_order n dest ctx).1
    ∧ statusOk (my_lro_tool n ctx).1
    ∧ statusOk (generate_images_with_approval n desc ctx).1
    ∧ statusOk exit_loop := by
  intro m b t dest desc n ctx
  obtain ⟨tc, reqs⟩ := ctx
  refine ⟨?_, ?_, ?_, ?_, ?_, ⟨"approved", rfl, by decide⟩⟩
  · rcases fee_result_form m with ⟨f, _, hm⟩ | ⟨_, hm⟩
    · exact ⟨"success", by rw [hm]; rfl, by decide⟩
    · exact ⟨"error", by rw [hm]; rfl, by decide⟩
  · rcases rate_result_form b t with ⟨r, hm⟩ | hm
    · exact ⟨"success", by rw [hm]; rfl, by decide⟩
    · exact ⟨"error", by rw [hm]; rfl, by decide⟩
  · by_cases h : n ≤ LARGE_ORDER_THRESHOLD
    · exact ⟨"approved",
        by simp [place_shipping_order, h, dictGet_head], by decide⟩
    · rcases tc with _ | ⟨⟨b⟩⟩
      · exact ⟨"pending",
          by simp [place_shipping_order, h, dictGet_head], by decide⟩
      · cases b
        · exact ⟨"rejected",
            by simp [place_shipping_order, h, dictGet_head], by decide⟩
        · exact ⟨"approved",
            by simp [place_shipping_order, h, dictGet_head], by decide⟩
  · by_cases h : n ≤ APPROVAL_THRESHOLD
    · exact ⟨"approved", by simp [my_lro_tool, h, dictGet_head], by decide⟩
    · rcases tc with _ | ⟨⟨b⟩⟩
      · exact ⟨"pending",
          by simp [my_lro_tool, h, dictGet_head], by decide⟩
      · cases b
        · exact ⟨"rejected",
            by simp [my_lro_tool, h, dictGet_head], by decide⟩
        · exact ⟨"approved",
            by simp [my_lro_tool, h, dictGet_head], by decide⟩
  · by_cases h : n ≤ BULK_IMAGE_THRESHOLD
    · exact ⟨"approved",
        by simp [generate_images_with_approval, h, dictGet_head], by decide⟩
    · rcases tc with _ | ⟨⟨b⟩⟩
      · exact ⟨"pending",
          by simp [generate_images_with_approval, h, dictGet_head], by decide⟩
      · cases b
        · exact ⟨"rejected",
            by simp [generate_images_with_approval, h, dictGet_head],
            by decide⟩
        · exact ⟨"approved",
            by simp [generate_images_with_approval, h, dictGet_head],
            by decide⟩

/-- The part scan finds nothing exactly when no part is a confirmation
request. -/
theorem findConfirmationPart_eq_none_iff (ps : List ContentPart) :
    findConfirmationPart ps = none
      ↔ ∀ p ∈ ps, partIsConfirmation p = false := by
  induction ps with
  | nil => simp [findConfirmationPart]
  | cons p ps ih =>
      rcases hfc : p.function_call with _ | fc
      · simp [findConfirmationPart, hfc, ih, partIsConfirmation]
      · cases hname : (fc.name == "adk_request_confirmation")
        · simp [findConfirmationPart, hfc, hname, ih, partIsConfirmation]
        · simp [findConfirmationPart, hfc, hname, partIsConfirmation]

/-- The part scan returns the function call of the first confirmation part. -/
theorem findConfirmationPart_first (ps₁ : List ContentPart) (p : ContentPart)
    (ps₂ : List ContentPart) (fc : FunctionCall)
    (h₁ : ∀ q ∈ ps₁, partIsConfirmation q = false)
    (hp : p.function_call = some fc)
    (hname : fc.name = "adk_request_confirmation") :
    findConfirmationPart (ps₁ ++ p :: ps₂) = some fc := by
  induction ps₁ with
  | nil => simp [findConfirmationPart, hp, hname]
  | cons q qs ih =>
      have hq : partIsConfirmation q = false := h₁ q (by simp)
      rcases hfc : q.function_call with _ | fcq
      · simpa [findConfirmationPart, hfc] using
          ih (fun r hr => h₁ r (by simp [hr]))
      · have hfalse : (fcq.name == "adk_request_confirmation") = false := by
          simpa [partIsConfirmation, hfc] using hq
        simpa [findConfirmationPart, hfc, hfalse] using
          ih (fun r hr => h₁ r (by simp [hr]))

/-- An event with no confirmation part is skipped by the event scan. -/
theorem check_for_approval_cons_of_no (x : Event) (rest : List Event)
    (h : eventHasConfirmation x = false) :
    check_for_approval (x :: rest) = check_for_approval rest := by
  rcases hc : x.content with _ | c
  · simp [check_for_approval, hc]
  · rcases hp : c.parts with _ | ⟨q, qs⟩
    · simp [check_for_approval, hc, hp]
    · have hany : (q :: qs).any partIsConfirmation = false := by
        simpa [eventHasConfirmation, hc, hp] using h
      have hfind : findConfirmationPart (q :: qs) = none :=
        (findConfirmationPart_eq_none_iff _).mpr (by
          intro r hr
          have := List.any_eq_false.mp hany r hr
          simpa using this)
      simp [check_for_approval, hc, hp, hfind]

/-- An event with a confirmation part makes the event scan return a pair. -/
theorem check_some_of_has (e : Event) (rest : List Event)
    (h : eventHasConfirmation e = true) :
    ∃ info, check_for_approval (e :: rest) = some info := by
  rcases hc : e.content with _ | c
  · simp [eventHasConfirmation, hc] at h
  · have hany : c.parts.any partIsConfirmation = true := by
      simpa [eventHasConfirmation, hc] using h
    rcases hfind : findConfirmationPart c.parts with _ | fc
    · have hall := (findConfirmationPart_eq_none_iff _).mp hfind
      have hfalse : c.parts.any partIsConfirmation = false :=
        List.any_eq_false.mpr (by intro x hx; simp [hall x hx])
      rw [hany] at hfalse
      exact Bool.noConfusion hfalse
    · have hne : c.parts.isEmpty = false := by
        cases hp : c.parts
        · rw [hp] at hany; simp at hany
        · simp
      exact ⟨⟨fc.id, e.invocation_id⟩,
        by simp [check_for_approval, hc, hne, hfind]⟩

/-- C7: `check_for_approval` returns `none` exactly on event sequences with no
confirmation-request part, and on a sequence containing one it returns the id
of the first such function call paired with the invocation id of the event
containing it. -/
theorem C7_check_for_approval :
    ∀ events : List Event,
      (check_for_approval events = none
        ↔ ∀ e ∈ events, eventHasConfirmation e = false)
    ∧ (∀ (es₁ : List Event) (e : Event) (es₂ : List Event) (c : Content)
         (ps₁ : List ContentPart) (p : ContentPart) (ps₂ : List ContentPart)
         (fc : FunctionCall),
         events = es₁ ++ e :: es₂ →
         (∀ x ∈ es₁, eventHasConfirmation x = false) →
         e.content = some c →
         c.parts = ps₁ ++ p :: ps₂ →
         (∀ q ∈ ps₁, partIsConfirmation q = false) →
         p.function_call = some fc →
         fc.name = "adk_request_confirmation" →
         check_for_approval events = some ⟨fc.id, e.invocation_id⟩) := by
  intro events
  constructor
  · induction events with
    | nil => simp [check_for_approval]
    | cons e rest ih =>
        cases he : eventHasConfirmation e
        · rw [check_for_approval_cons_of_no e rest he]
          simp [ih, he]
        · constructor
          · intro hnone
            obtain ⟨info, hsome⟩ := check_some_of_has e rest he
            rw [hnone] at hsome
            exact Option.noConfusion hsome
          · intro hall
            have h0 := hall e (by simp)
            rw [he] at h0
            exact absurd h0 (by simp)
  · intro es₁ e es₂ c ps₁ p ps₂ fc hev h₁ hc hps hp₁ hfc hname
    subst hev
    induction es₁ with
    | nil =>
        have hfind : findConfirmationPart c.parts = some fc := by
          rw [hps]
          exact findConfirmationPart_first ps₁ p ps₂ fc hp₁ hfc hname
        have hne : c.parts.isEmpty = false := by
          rw [hps]; cases ps₁ <;> simp
        simp [check_for_approval, hc, hne, hfind]
    | cons x xs ih =>
        have hx : eventHasConfirmation x = false := h₁ x (by simp)
        rw [List.cons_append, check_for_approval_cons_of_no x _ hx]
        exact ih (fun y hy => h₁ y (by simp [hy]))

/-- Closed instance of C7: a sequence whose second event carries the
confirmation request. -/
theorem C7_check_for_approval_witness :
    check_for_approval
        [⟨none, "inv0"⟩,
         ⟨some ⟨[⟨some ⟨"call-1", "adk_request_confirmation"⟩, none⟩]⟩,
          "inv1"⟩]
      = some ⟨"call-1", "inv1"⟩ :=
  (C7_check_for_approval
      [⟨none, "inv0"⟩,
       ⟨some ⟨[⟨some ⟨"call-1", "adk_request_confirmation"⟩, none⟩]⟩,
        "inv1"⟩]).2
    [⟨none, "inv0"⟩]
    ⟨some ⟨[⟨some ⟨"call-1", "adk_request_confirmation"⟩, none⟩]⟩, "inv1"⟩
    []
    ⟨[⟨some ⟨"call-1", "adk_request_confirmation"⟩, none⟩]⟩
    []
    ⟨some ⟨"call-1", "adk_request_confirmation"⟩, none⟩
    []
    ⟨"call-1", "adk_request_confirmation"⟩
    rfl (by decide) rfl rfl (by decide) rfl rfl

/-- Unfolding the fold from the top: one more iteration refines with the last
critique. -/
theorem loopFold_succ (c : Nat → String) (r : String → String → String) :
    ∀ (n i : Nat) (d : String),
      loopFold c r i (n + 1) d
        = r (loopFold c r i n d) (c (i + n + 1)) := by
  intro n
  induction n with
  | zero => intro i d; simp [loopFold]
  | succ n ih =>
      intro i d
      have h1 : loopFold c r i (n + 1 + 1) d
          = loopFold c r (i + 1) (n + 1) (r d (c (i + 1))) := rfl
      have h2 : loopFold c r i (n + 1) d
          = loopFold c r (i + 1) n (r d (c (i + 1))) := rfl
      rw [h1, ih (i + 1), h2]
      have h3 : i + 1 + n + 1 = i + (n + 1) + 1 := by omega
      rw [h3]

/-- The structural draft recurrence agrees with the tail-recursive fold. -/
theorem draftAt_eq_loopFold (c : Nat → String) (r : String → String → String)
    (d0 : String) : ∀ n, draftAt c r d0 n = loopFold c r 0 n d0 := by
  intro n
  induction n with
  | zero => rfl
  | succ n ih => simp [draftAt, loopFold_succ, ih]

/-- A loop window containing no sentinel runs its full fuel, refining at every
iteration. -/
theorem runLoop_no_sentinel (c : Nat → String) (r : String → String → String) :
    ∀ (fuel i : Nat) (d : String),
      (∀ j, i < j → j ≤ i + fuel → c j ≠ APPROVED_SENTINEL) →
      runRefinementLoop c r fuel i d = (i + fuel, loopFold c r i fuel d) := by
  intro fuel
  induction fuel with
  | zero => intro i d _; simp [runRefinementLoop, loopFold]
  | succ fuel ih =>
      intro i d h
      have hne : c (i + 1) ≠ APPROVED_SENTINEL := h (i + 1) (by omega) (by omega)
      simp only [runRefinementLoop]
      rw [if_neg hne]
      rw [ih (i + 1) (r d (c (i + 1))) (fun j h1 h2 => h j (by omega) (by omega))]
      have h1 : i + 1 + fuel = i + (fuel + 1) := by omega
      have h2 : loopFold c r i (fuel + 1) d
          = loopFold c r (i + 1) fuel (r d (c (i + 1))) := rfl
      rw [h1, h2]

/-- A loop whose first sentinel critique arrives at iteration `k` within the
fuel window exits at iteration `k` with the draft refined on the `k - 1`
earlier critiques. -/
theorem runLoop_sentinel (c : Nat → String) (r : String → String → String) :
    ∀ (fuel i : Nat) (d : String) (k : Nat),
      i < k → k ≤ i + fuel → c k = APPROVED_SENTINEL →
      (∀ j, i < j → j < k → c j ≠ APPROVED_SENTINEL) →
      runRefinementLoop c r fuel i d = (k, loopFold c r i (k - 1 - i) d) := by
  intro fuel
  induction fuel with
  | zero => intro i d k h1 h2 _ _; exfalso; omega
  | succ fuel ih =>
      intro i d k h1 h2 hk hfirst
      by_cases hik : k = i + 1
      · subst hik
        simp only [runRefinementLoop]
        rw [if_pos hk]
        have h0 : i + 1 - 1 - i = 0 := by omega
        rw [h0]
        rfl
      · have hlt : i + 1 < k := by omega
        have hne : c (i + 1) ≠ APPROVED_SENTINEL :=
          hfirst (i + 1) (by omega) hlt
        simp only [runRefinementLoop]
        rw [if_neg hne]
        rw [ih (i + 1) (r d (c (i + 1))) k hlt (by omega) hk
          (fun j ha hb => hfirst j (by omega) hb)]
        have e1 : k - 1 - i = k - 1 - (i + 1) + 1 := by omega
        have e2 : loopFold c r i (k - 1 - (i + 1) + 1) d
            = loopFold c r (i + 1) (k - 1 - (i + 1)) (r d (c (i + 1))) := rfl
        rw [e1, e2]

/-- C1: the story refinement loop, configured with max_iterations = 2 and
sub-agents critic then refiner: when the critique sequence first equals the
exact sentinel at iteration k within the ceiling, invoking the exit signal
ends the loop at iteration k with the draft then stored; when no critique in
the window equals the sentinel, the loop runs exactly max_iterations
iterations. -/
theorem C1_loop_termination :
    ∀ (critiques : Nat → String) (refine : String → String → String)
      (d0 : String),
      (∀ k, 1 ≤ k → k ≤ story_refinement_loop.max_iterations →
        critiques k = APPROVED_SENTINEL →
        (∀ j, 1 ≤ j → j < k → critiques j ≠ APPROVED_SENTINEL) →
        story_loop_run critiques refine d0
          = (k, draftAt critiques refine d0 (k - 1)))
    ∧ ((∀ j, 1 ≤ j → j ≤ story_refinement_loop.max_iterations →
          critiques j ≠ APPROVED_SENTINEL) →
        story_loop_run critiques refine d0
          = (story_refinement_loop.max_iterations,
             draftAt critiques refine d0
               story_refinement_loop.max_iterations)) := by
  intro c r d0
  constructor
  · intro k hk1 hk2 hsent hfirst
    unfold story_loop_run
    rw [runLoop_sentinel c r story_refinement_loop.max_iterations 0 d0 k
      (by omega) (by simpa using hk2) hsent
      (fun j h1 h2 => hfirst j (by omega) h2)]
    rw [draftAt_eq_loopFold]
    have h0 : k - 1 - 0 = k - 1 := by omega
    rw [h0]
  · intro hall
    unfold story_loop_run
    rw [runLoop_no_sentinel c r story_refinement_loop.max_iterations 0 d0
      (fun j h1 h2 => hall j (by omega) (by simpa using h2))]
    rw [draftAt_eq_loopFold]
    simp

/-- Closed instance of C1: approval at iteration 2 exits with the once-refined
draft; a never-approving critic runs both iterations. -/
theorem C1_loop_termination_witness :
    story_loop_run (fun n => if n = 2 then "APPROVED" else "add tension")
        (fun d cr => d ++ " rev:" ++ cr) "v1"
      = (2, "v1 rev:add tension")
  ∧ story_loop_run (fun _ => "add tension") (fun d _ => d ++ "+") "v1"
      = (2, "v1++") :=
  ⟨((C1_loop_termination (fun n => if n = 2 then "APPROVED" else "add tension")
        (fun d cr => d ++ " rev:" ++ cr) "v1").1 2 (by decide) (by decide)
      (by decide)
      (fun j h1 h2 => by
        have hj : j = 1 := by omega
        subst hj
        decide)).trans (by decide),
   ((C1_loop_termination (fun _ => "add tension") (fun d _ => d ++ "+")
        "v1").2 (fun j _ _ => by decide)).trans (by decide)⟩

/-- Key lookup after a write: the written key or an older one. -/
theorem hasKey_writeKey (s : StateBlob) (k' v k : String) :
    hasKey (writeKey s k' v) k = ((k' == k) || hasKey s k) := rfl

/-- Running more branches preserves keys already present. -/
theorem hasKey_runBranches_of_hasKey (out : AgentConfig → String) :
    ∀ (order : List AgentConfig) (s : StateBlob) (k : String),
      hasKey s k = true → hasKey (runBranches order out s) k = true := by
  intro order
  induction order with
  | nil => intro s k h; simpa [runBranches] using h
  | cons a rest ih =>
      intro s k h
      have hrw : runBranches (a :: rest) out s
          = runBranches rest out (writeKey s a.output_key (out a)) := rfl
      rw [hrw]
      refine ih _ k ?_
      rw [hasKey_writeKey, h, Bool.or_true]

/-- Every branch that runs leaves its output key in the joined state. -/
theorem hasKey_runBranches_of_mem (out : AgentConfig → String) :
    ∀ (order : List AgentConfig) (s : StateBlob) (a : AgentConfig),
      a ∈ order → hasKey (runBranches order out s) a.output_key = true := by
  intro order
  induction order with
  | nil => intro s a h; exact absurd h (List.not_mem_nil a)
  | cons b rest ih =>
      intro s a h
      have hrw : runBranches (b :: rest) out s
          = runBranches rest out (writeKey s b.output_key (out b)) := rfl
      rw [hrw]
      rcases List.mem_cons.mp h with h1 | h2
      · subst h1
        refine hasKey_runBranches_of_hasKey out rest _ _ ?_
        rw [hasKey_writeKey]
        simp
      · exact ih _ a h2

/-- C8: the three parallel researchers declare pairwise-distinct output keys,
and the aggregation step's input state — the state after the whole fan-out has
completed, whatever the branch completion order — contains every branch's
output key. -/
theorem C8_join_barrier :
    (tech_researcher.output_key ≠ health_researcher.output_key
      ∧ tech_researcher.output_key ≠ finance_researcher.output_key
      ∧ health_researcher.output_key ≠ finance_researcher.output_key)
  ∧ ∀ (order : List AgentConfig), order.Perm parallel_research_team →
      ∀ (out : AgentConfig → String) (agg : StateBlob → String)
        (s : StateBlob),
        ∀ a ∈ parallel_research_team,
          hasKey (runResearchSystem order out agg s).1 a.output_key
            = true := by
  refine ⟨by decide, ?_⟩
  intro order hperm out agg s a ha
  have hmem : a ∈ order := hperm.mem_iff.mpr ha
  exact hasKey_runBranches_of_mem out order s a hmem

/-- Closed instance of C8 at a completion order that differs from the declared
branch order. -/
theorem C8_join_barrier_witness :
    hasKey (runResearchSystem
        [health_researcher, tech_researcher, finance_researcher]
        (fun _ => "report") (fun _ => "summary") ([] : StateBlob)).1
      tech_researcher.output_key = true :=
  C8_join_barrier.2 [health_researcher, tech_researcher, finance_researcher]
    (List.Perm.swap tech_researcher health_researcher [finance_researcher])
    (fun _ => "report") (fun _ => "summary") ([] : StateBlob)
    tech_researcher (by decide)
